import Mathlib

/-!
Shallow embedding of the abc9 pass (src/passes/techmap/abc9.cc).

The pass has two parts that the claims are about:

* `Abc9Pass::execute` (lines 135-179): resets the flag members
  (`clear_flags`), seeds `dff_mode` and `cleanup` from the design
  scratchpad, then walks the argument vector accumulating `exe_cmd` and
  the pass-local flags, handing the unparsed remainder to `extra_args`
  (the selection mechanism).

* `Abc9Pass::script` (lines 181-264): a three-stage script (`pre`,
  `map`, `post`).  The `map` stage pushes a fresh selection, iterates
  the previously selected modules (skip on processes, assert the module
  carries no `abc9_box_id` attribute, fatal error on a not wholly
  selected module, temp dir creation, export, optional external
  invocation and reimport, cleanup), and pops the selection at loop
  exit.

Delegated operations (the commands dispatched through `run`, the
external tool, `make_temp_dir`, `write_xaiger`) and kernel facilities
that are not under src/ (`Design::selected_whole_module`, the
`ScriptPass` label dispatch, `log_error` terminating the run) are
modelled from the spec as oracles or explicit data, as noted on each
definition.  Everything else is translated line by line from the
source.
-/

namespace Abc9

/-- Flag members of `Abc9Pass` (abc9.cc lines 122-124): the accumulated
external-tool invocation string `exe_cmd`, the two booleans `dff_mode`
and `cleanup`, and the optional `box_file` path. -/
structure Flags where
  exe_cmd : String
  dff_mode : Bool
  cleanup : Bool
  box_file : String
  deriving DecidableEq

/-- Translation of `Abc9Pass::clear_flags` (lines 126-133): `exe_cmd`
restarts as `abc9_exe`, `dff_mode` false, `cleanup` true, empty
`box_file`. -/
def clear_flags : Flags :=
  { exe_cmd := "abc9_exe", dff_mode := false, cleanup := true, box_file := "" }

/-- Option tokens that take a value and are forwarded verbatim into
`exe_cmd` together with that value (line 147-149 of abc9.cc). -/
def isValueFlag (a : String) : Bool :=
  a = "-exe" || a = "-script" || a = "-D" || a = "-lut" || a = "-luts" || a = "-W"

/-- Bare switches forwarded verbatim into `exe_cmd` (lines 154-156). -/
def isSwitchFlag (a : String) : Bool :=
  a = "-fast" || a = "-showtmp" || a = "-nomfs"

/-- Translation of the argument loop of `Abc9Pass::execute` (lines
144-173), applied to the argument tokens after the pass name
(`argidx` starts at 1).  Returns the updated flags and the unparsed
remainder, which the source hands to `extra_args` (the design-unit
selection mechanism).  A value-taking flag in last position fails the
`argidx+1 < args.size()` guard and, matching none of the remaining
cases (the categories are disjoint string sets), falls through to the
`break`, exactly as modelled by the inner `[]` cases here. -/
def parseLoop : List String → Flags → Flags × List String
  | [], f => (f, [])
  | arg :: rest, f =>
    if isValueFlag arg then
      match rest with
      | v :: rest2 => parseLoop rest2 { f with exe_cmd := f.exe_cmd ++ " " ++ arg ++ " " ++ v }
      | [] => (f, [arg])
    else if isSwitchFlag arg then
      parseLoop rest { f with exe_cmd := f.exe_cmd ++ " " ++ arg }
    else if arg = "-dff" then
      parseLoop rest { f with dff_mode := true }
    else if arg = "-nocleanup" then
      parseLoop rest { f with cleanup := false }
    else if arg = "-box" then
      match rest with
      | v :: rest2 => parseLoop rest2 { f with box_file := v }
      | [] => (f, [arg])
    else (f, arg :: rest)

/-- Option tokens consumed by the argument loop, in order, excluding the
value arguments they take.  Mirrors the traversal of `parseLoop`; used
to state which flags were actually recognised on the command line. -/
def consumedOpts : List String → List String
  | [] => []
  | arg :: rest =>
    if isValueFlag arg then
      match rest with
      | _ :: rest2 => arg :: consumedOpts rest2
      | [] => []
    else if isSwitchFlag arg || arg = "-dff" || arg = "-nocleanup" then
      arg :: consumedOpts rest
    else if arg = "-box" then
      match rest with
      | _ :: rest2 => arg :: consumedOpts rest2
      | [] => []
    else []

/-- Modelled from the spec: the design scratchpad is a string-keyed
store; `scratchpad_get_bool(key, default)` (kernel, not under src/)
returns the stored boolean or the supplied default when the key is
absent.  The store itself is the oracle `scratch`. -/
def scratchGetBool (scratch : String → Option Bool) (k : String) (dflt : Bool) : Bool :=
  (scratch k).getD dflt

/-- Lines 138-142 of `Abc9Pass::execute`: `clear_flags`, then
`dff_mode = scratchpad_get_bool("abc9.dff", dff_mode)` and
`cleanup = !scratchpad_get_bool("abc9.nocleanup", !cleanup)`. -/
def initFlags (scratch : String → Option Bool) : Flags :=
  { clear_flags with
      dff_mode := scratchGetBool scratch "abc9.dff" clear_flags.dff_mode,
      cleanup := !(scratchGetBool scratch "abc9.nocleanup" (!clear_flags.cleanup)) }

/-- Result of the configuration phase of `Abc9Pass::execute`: the final
flags and the remainder handed to `extra_args` (selection mechanism). -/
structure ExecResult where
  flags : Flags
  selectionArgs : List String
  deriving DecidableEq

/-- Configuration phase of `Abc9Pass::execute` (lines 137-174) on the
argument tokens after the pass name. -/
def executeModel (scratch : String → Option Bool) (args : List String) : ExecResult :=
  { flags := (parseLoop args (initFlags scratch)).1,
    selectionArgs := (parseLoop args (initFlags scratch)).2 }

/-- Observable events of a run: the log messages and `run` commands of
the map stage, and temp directory creation and removal.  The payloads
are the exact strings the source builds. -/
inductive Event where
  | logSkip (modName : String)
  | logExtracted (ands wires inputs outputs : Int)
  | logNoMap
  | logRmTemp
  | cmd (line : String)
  | mkTempDir (template result : String)
  | rmTempDir (path : String)
  deriving DecidableEq

/-- A design unit as the map stage sees it.  `numProcesses` is
`mod->processes.size()`, `hasBoxId` is whether the `abc9_box_id`
attribute is present.  Modelled from the spec: `whollySelected` is the
verdict of the kernel `Design::selected_whole_module` (a module is
either wholly or only partially in the active selection), and the four
counts are what the delegated `write_xaiger` export records into the
scratchpad keys `write_xaiger.num_ands` / `num_wires` / `num_inputs` /
`num_outputs` for this unit. -/
structure Module where
  name : String
  numProcesses : Nat
  hasBoxId : Bool
  whollySelected : Bool
  numAnds : Int
  numWires : Int
  numInputs : Int
  numOutputs : Int
  deriving DecidableEq

/-- Fatal outcomes inside the per-unit loop: the `log_error` for a not
wholly selected module (line 223) and a failing `log_assert` on the
`abc9_box_id` attribute (line 218).  Both terminate the whole run. -/
inductive Fatal where
  | notWholeModule (modName : String)
  | assertBoxId (modName : String)
  deriving DecidableEq

/-- Bookkeeping state of a run: the depth of the selection stack of the
design, how many temp directories have been created (index for the
naming oracle), and the event trace so far. -/
structure LoopState where
  stackDepth : Nat
  counter : Nat
  trace : List Event
  deriving DecidableEq

/-- Full run state: bookkeeping plus the abstract design content of
type σ mutated by the delegated commands. -/
structure ScriptState (σ : Type) where
  loop : LoopState
  content : σ
  deriving DecidableEq

/-- Append a log-only event (a `log(...)` call; no design mutation). -/
def logEvent {σ : Type} (e : Event) (st : ScriptState σ) : ScriptState σ :=
  { st with loop := { st.loop with trace := st.loop.trace ++ [e] } }

/-- A `run(cmdline)` call: the command is recorded in the trace and its
effect on the design content is the oracle `exec`. -/
def runCmd {σ : Type} (exec : String → σ → σ) (line : String) (st : ScriptState σ) : ScriptState σ :=
  { loop := { st.loop with trace := st.loop.trace ++ [Event.cmd line] },
    content := exec line st.content }

/-- Sequential `run` calls. -/
def runCmds {σ : Type} (exec : String → σ → σ) : List String → ScriptState σ → ScriptState σ
  | [], st => st
  | c :: cs, st => runCmds exec cs (runCmd exec c st)

/-- The box description file inside a temp workspace. -/
def boxPath (td : String) : String := td ++ "/input.box"

/-- The port-symbol map file inside a temp workspace. -/
def symPath (td : String) : String := td ++ "/input.sym"

/-- The exported fragment file inside a temp workspace. -/
def xaigPath (td : String) : String := td ++ "/input.xaig"

/-- The external tool result file inside a temp workspace. -/
def outPath (td : String) : String := td ++ "/output.aig"

/-- Lines 230-233: `abc9_ops -write_box` with either the configured box
file or the `(null)` sentinel, writing `input.box` in the workspace. -/
def writeBoxCmd (boxFile td : String) : String :=
  if boxFile = "" then "abc9_ops -write_box (null) " ++ boxPath td
  else "abc9_ops -write_box " ++ boxFile ++ " " ++ boxPath td

/-- Line 234: `write_xaiger -map <td>/input.sym <td>/input.xaig`. -/
def writeXaigerCmd (td : String) : String :=
  "write_xaiger -map " ++ symPath td ++ " " ++ xaigPath td

/-- Line 243: the accumulated `exe_cmd` invoked with the workspace as
working directory and the box file as explicit argument. -/
def invokeCmd (exeCmd td : String) : String :=
  exeCmd ++ " -cwd " ++ td ++ " -box " ++ boxPath td

/-- Line 244: `read_aiger` importing `output.aig` under the derived
name `<module>$abc9`, restoring wide ports via the same `input.sym`
map that `write_xaiger` produced. -/
def readAigerCmd (nm td : String) : String :=
  "read_aiger -xaiger -wideports -module_name " ++ nm ++ "$abc9" ++ " -map "
    ++ symPath td ++ " " ++ outPath td

/-- Overwrite one character position of a string (the effect of
`tempdir_name[i] = c` on a `std::string`). -/
def setCharAt (s : String) (i : Nat) (c : Char) : String :=
  String.mk (s.data.set i c)

/-- Line 225: the fixed temp directory name template. -/
def baseTemplate : String := "/tmp/yosys-abc-XXXXXX"

/-- Lines 225-227: the template handed to `make_temp_dir`.  When
cleanup is disabled, positions 0 and 4 are overwritten with an
underscore first. -/
def tempdirTemplate (cleanup : Bool) : String :=
  if cleanup then baseTemplate else setCharAt (setCharAt baseTemplate 0 '_') 4 '_'

/-- Lines 250-253: when cleanup is enabled the removal notice is logged
and the whole workspace subtree removed; otherwise nothing happens.
This runs after a unit whether or not the external tool was invoked. -/
def cleanupEvents (cleanup : Bool) (td : String) : List Event :=
  if cleanup then [Event.logRmTemp, Event.rmTempDir td] else []

/-- Events of one non-skipped, wholly selected unit (lines 225-253):
temp dir creation, box export, fragment export, the extraction-count
log, then either the external invocation / reimport / reintegration
triple (non-zero outputs) or the nothing-to-map notice, then cleanup
per the retention policy. -/
def unitEvents (cfg : Flags) (m : Module) (td tpl : String) : List Event :=
  [Event.mkTempDir tpl td,
   Event.cmd (writeBoxCmd cfg.box_file td),
   Event.cmd (writeXaigerCmd td),
   Event.logExtracted m.numAnds m.numWires m.numInputs m.numOutputs]
  ++ (if m.numOutputs ≠ 0 then
        [Event.cmd (invokeCmd cfg.exe_cmd td),
         Event.cmd (readAigerCmd m.name td),
         Event.cmd "abc9_ops -reintegrate"]
      else [Event.logNoMap])
  ++ cleanupEvents cfg.cleanup td

/-- Effect on the design content of the commands run for one
non-skipped unit, in source order. -/
def unitContent {σ : Type} (exec : String → σ → σ) (cfg : Flags) (m : Module) (td : String) (c : σ) : σ :=
  let c1 := exec (writeXaigerCmd td) (exec (writeBoxCmd cfg.box_file td) c)
  if m.numOutputs ≠ 0 then
    exec "abc9_ops -reintegrate" (exec (readAigerCmd m.name td) (exec (invokeCmd cfg.exe_cmd td) c1))
  else c1

/-- One iteration of the per-unit mapping loop (lines 213-256).  The
selection-membership mutations (`select(mod)` at line 220 and
`selected_modules.clear()` at line 255) only change the membership of
the selection pushed at loop entry, never the stack depth, and are not
otherwise observable to the claims; they are not tracked.  Modelled
from the spec: `make_temp_dir` (kernel) is the oracle `mkTemp` applied
to the template and a freshness index; `log_error` and a failing
`log_assert` terminate the run, modelled as `Except.error` carrying
the exact state at the abort point. -/
def processModule {σ : Type} (exec : String → σ → σ) (cfg : Flags) (mkTemp : String → Nat → String)
    (m : Module) (st : ScriptState σ) : Except (ScriptState σ × Fatal) (ScriptState σ) :=
  if 0 < m.numProcesses then
    Except.ok (logEvent (Event.logSkip m.name) st)
  else if m.hasBoxId then
    Except.error (st, Fatal.assertBoxId m.name)
  else if m.whollySelected = false then
    Except.error (st, Fatal.notWholeModule m.name)
  else
    Except.ok
      { loop := { stackDepth := st.loop.stackDepth,
                  counter := st.loop.counter + 1,
                  trace := st.loop.trace
                    ++ unitEvents cfg m (mkTemp (tempdirTemplate cfg.cleanup) st.loop.counter)
                         (tempdirTemplate cfg.cleanup) },
        content := unitContent exec cfg m (mkTemp (tempdirTemplate cfg.cleanup) st.loop.counter)
                     st.content }

/-- The `for (auto mod : selected_modules)` loop (lines 213-256). -/
def mapLoop {σ : Type} (exec : String → σ → σ) (cfg : Flags) (mkTemp : String → Nat → String) :
    List Module → ScriptState σ → Except (ScriptState σ × Fatal) (ScriptState σ)
  | [], st => Except.ok st
  | m :: ms, st =>
    match processModule exec cfg mkTemp m st with
    | Except.ok st2 => mapLoop exec cfg mkTemp ms st2
    | Except.error e => Except.error e

/-- Line 211: `selection_stack.emplace_back(false)`. -/
def pushSelection {σ : Type} (st : ScriptState σ) : ScriptState σ :=
  { st with loop := { st.loop with stackDepth := st.loop.stackDepth + 1 } }

/-- Line 258: `selection_stack.pop_back()`. -/
def popSelection {σ : Type} (st : ScriptState σ) : ScriptState σ :=
  { st with loop := { st.loop with stackDepth := st.loop.stackDepth - 1 } }

/-- The `map` stage (lines 200-260, execute mode): push a fresh
selection, run the per-unit loop over the previously captured selected
modules, pop at loop exit.  A fatal abort inside the loop propagates
without reaching the pop. -/
def mapStage {σ : Type} (exec : String → σ → σ) (cfg : Flags) (mkTemp : String → Nat → String)
    (mods : List Module) (st : ScriptState σ) : Except (ScriptState σ × Fatal) (ScriptState σ) :=
  match mapLoop exec cfg mkTemp mods (pushSelection st) with
  | Except.ok st1 => Except.ok (popSelection st1)
  | Except.error e => Except.error e

/-- The `pre` stage command sequence (lines 183-198, execute mode). -/
def preCmds (dff_mode : Bool) : List String :=
  ["abc9_ops -check",
   "scc -set_attr abc9_scc_id \x7b\x7d",
   "abc9_ops -break_scc -prep_times -prep_holes" ++ (if dff_mode then " -dff" else ""),
   "select -set abc9_holes A:abc9_holes",
   "flatten -wb @abc9_holes",
   "techmap @abc9_holes"]
  ++ (if dff_mode then ["abc9_ops -prep_dff"] else [])
  ++ ["opt -purge @abc9_holes",
      "aigmap",
      "wbflip @abc9_holes"]

/-- The `pre` stage: the whole-design decomposition commands. -/
def preStage {σ : Type} (exec : String → σ → σ) (dff_mode : Bool) (st : ScriptState σ) : ScriptState σ :=
  runCmds exec (preCmds dff_mode) st

/-- The `post` stage (lines 262-263): `abc9_ops -unbreak_scc`. -/
def postStage {σ : Type} (exec : String → σ → σ) (st : ScriptState σ) : ScriptState σ :=
  runCmd exec "abc9_ops -unbreak_scc" st

/-- The three stage checkpoints, in their fixed order. -/
inductive Label where
  | pre
  | map
  | post
  deriving DecidableEq

/-- Position of a stage in the fixed order. -/
def labelIdx : Label → Nat
  | Label.pre => 0
  | Label.map => 1
  | Label.post => 2

/-- Modelled from the spec: the `ScriptPass` label dispatch
(`check_label` / `run_script` of kernel/register.h, not under src/).
A run restricted to the label range [a, b] executes exactly the stages
whose index lies in that range; an unset bound means unrestricted.
Stages are examined in their fixed order, never re-ordered. -/
def checkLabel (a b : Option Label) (l : Label) : Bool :=
  (match a with
   | none => true
   | some x => decide (labelIdx x ≤ labelIdx l))
  && (match b with
      | none => true
      | some y => decide (labelIdx l ≤ labelIdx y))

/-- `Abc9Pass::script` in execute mode, restricted to the label range
[a, b]: `pre` (if selected), then `map` (if selected), then `post` (if
selected), threading one design state through. -/
def abc9Script {σ : Type} (exec : String → σ → σ) (cfg : Flags) (mkTemp : String → Nat → String)
    (mods : List Module) (a b : Option Label) (st : ScriptState σ) :
    Except (ScriptState σ × Fatal) (ScriptState σ) :=
  match (if checkLabel a b Label.map
         then mapStage exec cfg mkTemp mods
                (if checkLabel a b Label.pre then preStage exec cfg.dff_mode st else st)
         else Except.ok (if checkLabel a b Label.pre then preStage exec cfg.dff_mode st else st)) with
  | Except.error e => Except.error e
  | Except.ok st2 => Except.ok (if checkLabel a b Label.post then postStage exec st2 else st2)

/-- Number of skip notices naming a given module in a trace. -/
def skipCount (nm : String) (tr : List Event) : Nat :=
  List.countP (fun e => match e with
    | Event.logSkip x => decide (x = nm)
    | _ => false) tr

/-- Selection stack depth at the abort point of a run that ended
fatally (none for a completed run). -/
def errDepth {σ : Type} : Except (ScriptState σ × Fatal) (ScriptState σ) → Option Nat
  | Except.error (s, _) => some s.loop.stackDepth
  | Except.ok _ => none

/-- Oracle fixture: delegated commands leave the (trivial) content
untouched. -/
def exec0 : String → Unit → Unit := fun _ u => u

/-- Oracle fixture: a degenerate `make_temp_dir` substitution that
returns the template unchanged. -/
def mkTemp0 : String → Nat → String := fun t _ => t

/-- Fixture: default configuration. -/
def cfg0 : Flags := clear_flags

/-- Fixture: configuration with cleanup disabled (`-nocleanup`). -/
def cfgKeep : Flags := { clear_flags with cleanup := false }

/-- Fixture: initial run state with an empty trace. -/
def st0 : ScriptState Unit :=
  { loop := { stackDepth := 0, counter := 0, trace := [] }, content := () }

/-- Fixture: a process-free module that is only partially selected. -/
def modNotWhole : Module :=
  { name := "top", numProcesses := 0, hasBoxId := false, whollySelected := false,
    numAnds := 1, numWires := 2, numInputs := 3, numOutputs := 1 }

/-- Fixture: a module containing one behavioral process. -/
def modSkip : Module :=
  { name := "behav", numProcesses := 1, hasBoxId := false, whollySelected := true,
    numAnds := 0, numWires := 0, numInputs := 0, numOutputs := 0 }

/-- Fixture: a process-free module carrying the `abc9_box_id`
attribute. -/
def modBox : Module :=
  { name := "boxmod", numProcesses := 0, hasBoxId := true, whollySelected := true,
    numAnds := 0, numWires := 0, numInputs := 0, numOutputs := 0 }

/-- Fixture: a wholly selected module whose export reports zero
outputs. -/
def modZero : Module :=
  { name := "empty", numProcesses := 0, hasBoxId := false, whollySelected := true,
    numAnds := 0, numWires := 0, numInputs := 0, numOutputs := 0 }

/-- Fixture: a wholly selected mappable module with one output. -/
def modGo : Module :=
  { name := "core", numProcesses := 0, hasBoxId := false, whollySelected := true,
    numAnds := 5, numWires := 6, numInputs := 2, numOutputs := 1 }

/-- Fixture: the final state of a full default run over just
`modSkip`. -/
def skipRunFinal : ScriptState Unit :=
  { loop := { stackDepth := 0, counter := 0,
              trace := (preCmds false).map Event.cmd
                ++ [Event.logSkip "behav", Event.cmd "abc9_ops -unbreak_scc"] },
    content := () }

/-- Step equation: a recognised value-taking flag with its value is
forwarded verbatim into `exe_cmd` and parsing continues. -/
theorem parseLoop_value (arg v : String) (rest : List String) (f : Flags)
    (h : isValueFlag arg = true) :
    parseLoop (arg :: v :: rest) f
      = parseLoop rest { f with exe_cmd := f.exe_cmd ++ " " ++ arg ++ " " ++ v } := by
  simp [parseLoop, h]

/-- Step equation: a value-taking flag in last position is left for the
selection mechanism. -/
theorem parseLoop_value_last (arg : String) (f : Flags) (h : isValueFlag arg = true) :
    parseLoop [arg] f = (f, [arg]) := by
  simp [parseLoop, h]

/-- Step equation: a recognised bare switch is forwarded verbatim into
`exe_cmd` and parsing continues. -/
theorem parseLoop_switch (arg : String) (rest : List String) (f : Flags)
    (h1 : isValueFlag arg = false) (h2 : isSwitchFlag arg = true) :
    parseLoop (arg :: rest) f = parseLoop rest { f with exe_cmd := f.exe_cmd ++ " " ++ arg } := by
  cases rest <;> simp [parseLoop, h1, h2]

/-- Step equation: `-dff` sets the pass-local flag and is not
forwarded (`exe_cmd` unchanged). -/
theorem parseLoop_dffArg (rest : List String) (f : Flags) :
    parseLoop ("-dff" :: rest) f = parseLoop rest { f with dff_mode := true } := by
  cases rest <;> simp [parseLoop, isValueFlag, isSwitchFlag]

/-- Step equation: `-nocleanup` clears the pass-local cleanup flag and
is not forwarded. -/
theorem parseLoop_nocleanupArg (rest : List String) (f : Flags) :
    parseLoop ("-nocleanup" :: rest) f = parseLoop rest { f with cleanup := false } := by
  cases rest <;> simp [parseLoop, isValueFlag, isSwitchFlag]

/-- Step equation: `-box <file>` stores the box library path and is not
forwarded. -/
theorem parseLoop_boxArg (v : String) (rest : List String) (f : Flags) :
    parseLoop ("-box" :: v :: rest) f = parseLoop rest { f with box_file := v } := by
  simp [parseLoop, isValueFlag, isSwitchFlag]

/-- Step equation: `-box` in last position is left for the selection
mechanism. -/
theorem parseLoop_boxLast (f : Flags) : parseLoop ["-box"] f = (f, ["-box"]) := by
  simp [parseLoop, isValueFlag, isSwitchFlag]

/-- Step equation: the first unrecognised token stops option parsing;
it and the remainder are returned for the selection mechanism. -/
theorem parseLoop_stop (arg : String) (rest : List String) (f : Flags)
    (h1 : isValueFlag arg = false) (h2 : isSwitchFlag arg = false)
    (h3 : arg ≠ "-dff") (h4 : arg ≠ "-nocleanup") (h5 : arg ≠ "-box") :
    parseLoop (arg :: rest) f = (f, arg :: rest) := by
  cases rest <;> simp [parseLoop, h1, h2, h3, h4, h5]

/-- Step equations for the consumed-option list, mirroring the
traversal of `parseLoop`. -/
theorem consumedOpts_value (arg v : String) (rest : List String) (h : isValueFlag arg = true) :
    consumedOpts (arg :: v :: rest) = arg :: consumedOpts rest := by
  simp [consumedOpts, h]

/-- Consumed options of a lone value flag: none. -/
theorem consumedOpts_value_last (arg : String) (h : isValueFlag arg = true) :
    consumedOpts [arg] = [] := by
  simp [consumedOpts, h]

/-- Consumed options after a bare switch. -/
theorem consumedOpts_switch (arg : String) (rest : List String)
    (h1 : isValueFlag arg = false) (h2 : isSwitchFlag arg = true) :
    consumedOpts (arg :: rest) = arg :: consumedOpts rest := by
  cases rest <;> simp [consumedOpts, h1, h2]

/-- Consumed options after `-dff`. -/
theorem consumedOpts_dffArg (rest : List String) :
    consumedOpts ("-dff" :: rest) = "-dff" :: consumedOpts rest := by
  cases rest <;> simp [consumedOpts, isValueFlag, isSwitchFlag]

/-- Consumed options after `-nocleanup`. -/
theorem consumedOpts_nocleanupArg (rest : List String) :
    consumedOpts ("-nocleanup" :: rest) = "-nocleanup" :: consumedOpts rest := by
  cases rest <;> simp [consumedOpts, isValueFlag, isSwitchFlag]

/-- Consumed options after `-box <file>`. -/
theorem consumedOpts_boxArg (v : String) (rest : List String) :
    consumedOpts ("-box" :: v :: rest) = "-box" :: consumedOpts rest := by
  simp [consumedOpts, isValueFlag, isSwitchFlag]

/-- Consumed options of a lone `-box`: none. -/
theorem consumedOpts_boxLast : consumedOpts ["-box"] = [] := by
  simp [consumedOpts, isValueFlag, isSwitchFlag]

/-- Consumed options stop at the first unrecognised token. -/
theorem consumedOpts_stop (arg : String) (rest : List String)
    (h1 : isValueFlag arg = false) (h2 : isSwitchFlag arg = false)
    (h3 : arg ≠ "-dff") (h4 : arg ≠ "-nocleanup") (h5 : arg ≠ "-box") :
    consumedOpts (arg :: rest) = [] := by
  cases rest <;> simp [consumedOpts, h1, h2, h3, h4, h5]

/-- Helper: membership test in a cons cell whose head is known to
differ. -/
theorem ite_mem_cons_ne (x a : String) (l : List String) (hne : x ≠ a) (t e : Bool) :
    (if x ∈ a :: l then t else e) = (if x ∈ l then t else e) := by
  by_cases hm : x ∈ l
  · rw [if_pos hm, if_pos (List.mem_cons_of_mem a hm)]
  · rw [if_neg hm, if_neg (by simp [List.mem_cons, hne, hm])]

/-- Helper: membership test in a cons cell headed by the element
itself. -/
theorem ite_mem_cons_self (a : String) (l : List String) (t e : Bool) :
    (if a ∈ a :: l then t else e) = t :=
  if_pos (List.mem_cons_self a l)

/-- Characterisation of the two scratchpad-seeded booleans through the
argument loop: a consumed `-dff` forces `dff_mode` on, a consumed
`-nocleanup` forces `cleanup` off, and otherwise the incoming value
(the scratchpad-seeded default) survives unchanged. -/
theorem parseLoop_flags : ∀ (args : List String) (f : Flags),
    ((parseLoop args f).1.dff_mode = (if "-dff" ∈ consumedOpts args then true else f.dff_mode))
    ∧ ((parseLoop args f).1.cleanup = (if "-nocleanup" ∈ consumedOpts args then false else f.cleanup))
  | [], f => by simp [parseLoop, consumedOpts]
  | arg :: rest, f => by
    by_cases hv : isValueFlag arg = true
    · have hd : ("-dff" : String) ≠ arg := by
        intro h; rw [← h] at hv; exact absurd hv (by decide)
      have hn : ("-nocleanup" : String) ≠ arg := by
        intro h; rw [← h] at hv; exact absurd hv (by decide)
      cases rest with
      | nil =>
        rw [parseLoop_value_last arg f hv, consumedOpts_value_last arg hv]
        simp
      | cons v rest2 =>
        have ih := parseLoop_flags rest2 { f with exe_cmd := f.exe_cmd ++ " " ++ arg ++ " " ++ v }
        rw [parseLoop_value arg v rest2 f hv, consumedOpts_value arg v rest2 hv,
          ite_mem_cons_ne _ _ _ hd, ite_mem_cons_ne _ _ _ hn]
        exact ih
    · rw [Bool.not_eq_true] at hv
      by_cases hs : isSwitchFlag arg = true
      · have hd : ("-dff" : String) ≠ arg := by
          intro h; rw [← h] at hs; exact absurd hs (by decide)
        have hn : ("-nocleanup" : String) ≠ arg := by
          intro h; rw [← h] at hs; exact absurd hs (by decide)
        have ih := parseLoop_flags rest { f with exe_cmd := f.exe_cmd ++ " " ++ arg }
        rw [parseLoop_switch arg rest f hv hs, consumedOpts_switch arg rest hv hs,
          ite_mem_cons_ne _ _ _ hd, ite_mem_cons_ne _ _ _ hn]
        exact ih
      · rw [Bool.not_eq_true] at hs
        by_cases h1 : arg = "-dff"
        · subst h1
          have ih := parseLoop_flags rest { f with dff_mode := true }
          constructor
          · rw [parseLoop_dffArg rest f, consumedOpts_dffArg rest, ite_mem_cons_self]
            rcases ih with ⟨ih1, -⟩
            by_cases hm : "-dff" ∈ consumedOpts rest
            · rw [ih1, if_pos hm]
            · rw [ih1, if_neg hm]
          · rw [parseLoop_dffArg rest f, consumedOpts_dffArg rest,
              ite_mem_cons_ne _ _ _ (by decide)]
            exact ih.2
        · by_cases h2 : arg = "-nocleanup"
          · subst h2
            have ih := parseLoop_flags rest { f with cleanup := false }
            constructor
            · rw [parseLoop_nocleanupArg rest f, consumedOpts_nocleanupArg rest,
                ite_mem_cons_ne _ _ _ (by decide)]
              exact ih.1
            · rw [parseLoop_nocleanupArg rest f, consumedOpts_nocleanupArg rest,
                ite_mem_cons_self]
              rcases ih with ⟨-, ih2⟩
              by_cases hm : "-nocleanup" ∈ consumedOpts rest
              · rw [ih2, if_pos hm]
              · rw [ih2, if_neg hm]
          · by_cases h3 : arg = "-box"
            · subst h3
              cases rest with
              | nil =>
                rw [parseLoop_boxLast f, consumedOpts_boxLast]
                simp
              | cons v rest2 =>
                have ih := parseLoop_flags rest2 { f with box_file := v }
                rw [parseLoop_boxArg v rest2 f, consumedOpts_boxArg v rest2,
                  ite_mem_cons_ne _ _ _ (by decide), ite_mem_cons_ne _ _ _ (by decide)]
                exact ih
            · rw [parseLoop_stop arg rest f hv hs h1 h2 h3,
                consumedOpts_stop arg rest hv hs h1 h2 h3]
              simp

/-- Running a command does not touch the selection stack. -/
theorem runCmds_depth {σ : Type} (exec : String → σ → σ) :
    ∀ (cmds : List String) (st : ScriptState σ),
      (runCmds exec cmds st).loop.stackDepth = st.loop.stackDepth
  | [], _ => rfl
  | c :: cs, st => runCmds_depth exec cs (runCmd exec c st)

/-- The `pre` stage does not touch the selection stack. -/
theorem preStage_depth {σ : Type} (exec : String → σ → σ) (d : Bool) (st : ScriptState σ) :
    (preStage exec d st).loop.stackDepth = st.loop.stackDepth :=
  runCmds_depth exec (preCmds d) st

/-- A successful loop iteration does not touch the selection stack, and
a fatal iteration reports the state it aborted in unchanged in depth. -/
theorem processModule_depth {σ : Type} (exec : String → σ → σ) (cfg : Flags)
    (mkTemp : String → Nat → String) (m : Module) (st st1 : ScriptState σ)
    (h : processModule exec cfg mkTemp m st = Except.ok st1) :
    st1.loop.stackDepth = st.loop.stackDepth := by
  unfold processModule at h
  split at h
  · cases h; rfl
  · split at h
    · exact Except.noConfusion h
    · split at h
      · exact Except.noConfusion h
      · cases h; rfl

/-- A completed per-unit loop leaves the selection stack depth where it
started. -/
theorem mapLoop_depth {σ : Type} (exec : String → σ → σ) (cfg : Flags)
    (mkTemp : String → Nat → String) :
    ∀ (mods : List Module) (st st1 : ScriptState σ),
      mapLoop exec cfg mkTemp mods st = Except.ok st1 →
      st1.loop.stackDepth = st.loop.stackDepth
  | [], st, st1, h => by cases h; rfl
  | m :: ms, st, st1, h => by
    simp only [mapLoop] at h
    cases hp : processModule exec cfg mkTemp m st with
    | ok st2 =>
      rw [hp] at h
      exact (mapLoop_depth exec cfg mkTemp ms st2 st1 h).trans
        (processModule_depth exec cfg mkTemp m st st2 hp)
    | error e =>
      rw [hp] at h
      exact Except.noConfusion h

/-- A completed `map` stage pops exactly the selection it pushed. -/
theorem mapStage_depth {σ : Type} (exec : String → σ → σ) (cfg : Flags)
    (mkTemp : String → Nat → String) (mods : List Module) (st st1 : ScriptState σ)
    (h : mapStage exec cfg mkTemp mods st = Except.ok st1) :
    st1.loop.stackDepth = st.loop.stackDepth := by
  unfold mapStage at h
  cases hp : mapLoop exec cfg mkTemp mods (pushSelection st) with
  | ok st2 =>
    rw [hp] at h
    cases h
    have h2 := mapLoop_depth exec cfg mkTemp mods (pushSelection st) st2 hp
    simp only [popSelection, pushSelection] at h2 ⊢
    omega
  | error e =>
    rw [hp] at h
    exact Except.noConfusion h

/-- Skip counting distributes over trace concatenation. -/
theorem skipCount_append (nm : String) (t1 t2 : List Event) :
    skipCount nm (t1 ++ t2) = skipCount nm t1 + skipCount nm t2 :=
  List.countP_append _ t1 t2

/-- The events of a processed (non-skipped) unit contain no skip
notice. -/
theorem skipCount_unitEvents (nm : String) (cfg : Flags) (m : Module) (td tpl : String) :
    skipCount nm (unitEvents cfg m td tpl) = 0 := by
  unfold unitEvents skipCount cleanupEvents
  by_cases h : m.numOutputs ≠ 0 <;> by_cases hc : cfg.cleanup <;>
    simp [h, hc, List.countP_append, List.countP_cons]

/-- One loop iteration adds exactly one skip notice naming the module
when it contains processes, and none otherwise. -/
theorem processModule_skipCount {σ : Type} (exec : String → σ → σ) (cfg : Flags)
    (mkTemp : String → Nat → String) (m : Module) (st st1 : ScriptState σ) (nm : String)
    (h : processModule exec cfg mkTemp m st = Except.ok st1) :
    skipCount nm st1.loop.trace
      = skipCount nm st.loop.trace
        + (if m.name = nm ∧ 0 < m.numProcesses then 1 else 0) := by
  unfold processModule at h
  split at h
  next hp =>
    cases h
    simp only [logEvent, skipCount_append]
    by_cases hn : m.name = nm
    · rw [if_pos ⟨hn, hp⟩]
      simp [skipCount, List.countP_cons, hn]
    · rw [if_neg (fun hc => hn hc.1)]
      simp [skipCount, List.countP_cons, hn]
  next hp =>
    split at h
    · exact Except.noConfusion h
    · split at h
      · exact Except.noConfusion h
      · cases h
        rw [if_neg (fun hc => hp hc.2)]
        simp [skipCount_append, skipCount_unitEvents]

/-- Over a completed loop, the number of skip notices naming `nm`
grows by exactly the number of listed modules with that name that
contain processes. -/
theorem mapLoop_skipCount {σ : Type} (exec : String → σ → σ) (cfg : Flags)
    (mkTemp : String → Nat → String) (nm : String) :
    ∀ (mods : List Module) (st st1 : ScriptState σ),
      mapLoop exec cfg mkTemp mods st = Except.ok st1 →
      skipCount nm st1.loop.trace
        = skipCount nm st.loop.trace
          + List.countP (fun x => decide (x.name = nm) && decide (0 < x.numProcesses)) mods
  | [], st, st1, h => by cases h; simp
  | m :: ms, st, st1, h => by
    simp only [mapLoop] at h
    cases hp : processModule exec cfg mkTemp m st with
    | ok st2 =>
      rw [hp] at h
      have h1 := processModule_skipCount exec cfg mkTemp m st st2 nm hp
      have h2 := mapLoop_skipCount exec cfg mkTemp nm ms st2 st1 h
      rw [h2, h1, List.countP_cons]
      by_cases hc : m.name = nm ∧ 0 < m.numProcesses
      · rw [if_pos hc]
        have : (decide (m.name = nm) && decide (0 < m.numProcesses)) = true := by
          simp [hc.1, hc.2]
        rw [this]
        simp
        omega
      · rw [if_neg hc]
        have : (decide (m.name = nm) && decide (0 < m.numProcesses)) = false := by
          rcases Decidable.not_and_iff_or_not.mp hc with hx | hx <;> simp [hx]
        rw [this]
        simp
    | error e =>
      rw [hp] at h
      exact Except.noConfusion h

/-- C1 (amended): every run of the pass that completes leaves the
selection stack at the depth it started with — the selection pushed at
entry to the per-unit loop is popped at loop exit, including runs in
which units are skipped; a run that fatally aborts mid-loop, however,
never reaches the pop (see the counterexample). -/
theorem selection_stack_balanced_of_ok {σ : Type} (exec : String → σ → σ) (cfg : Flags)
    (mkTemp : String → Nat → String) (mods : List Module) (a b : Option Label)
    (st st1 : ScriptState σ)
    (h : abc9Script exec cfg mkTemp mods a b st = Except.ok st1) :
    st1.loop.stackDepth = st.loop.stackDepth := by
  unfold abc9Script at h
  have hA : (if checkLabel a b Label.pre then preStage exec cfg.dff_mode st else st).loop.stackDepth
      = st.loop.stackDepth := by
    split
    · exact preStage_depth exec cfg.dff_mode st
    · rfl
  cases hg : checkLabel a b Label.map with
  | true =>
    rw [if_pos hg] at h
    cases hm : mapStage exec cfg mkTemp mods
        (if checkLabel a b Label.pre then preStage exec cfg.dff_mode st else st) with
    | error e =>
      rw [hm] at h
      exact Except.noConfusion h
    | ok st2 =>
      rw [hm] at h
      cases h
      have hd := mapStage_depth exec cfg mkTemp mods _ st2 hm
      split
      · show (postStage exec st2).loop.stackDepth = _
        have hpost : (postStage exec st2).loop.stackDepth = st2.loop.stackDepth := rfl
        rw [hpost, hd, hA]
      · rw [hd, hA]
  | false =>
    rw [hg, if_neg Bool.false_ne_true] at h
    cases h
    split
    · show (postStage exec _).loop.stackDepth = _
      have hpost : ∀ s : ScriptState σ,
          (postStage exec s).loop.stackDepth = s.loop.stackDepth := fun _ => rfl
      rw [hpost, hA]
    · exact hA

/-- Witness for C1 (amended): a complete default run over a single
skipped module ends at the starting depth. -/
theorem selection_stack_balanced_of_ok_example :
    abc9Script exec0 cfg0 mkTemp0 [modSkip] none none st0 = Except.ok skipRunFinal
    ∧ skipRunFinal.loop.stackDepth = st0.loop.stackDepth :=
  ⟨rfl, selection_stack_balanced_of_ok exec0 cfg0 mkTemp0 [modSkip] none none st0 skipRunFinal rfl⟩

/-- Counterexample for C1 as stated: a run aborting on a partially
selected module stops at selection stack depth 1 although it started
at depth 0 — the pushed selection is never popped on the abort path. -/
theorem selection_stack_abort_imbalance :
    errDepth (abc9Script exec0 cfg0 mkTemp0 [modNotWhole] none none st0) = some 1
    ∧ st0.loop.stackDepth = 0
    ∧ errDepth (abc9Script exec0 cfg0 mkTemp0 [modNotWhole] none none st0)
        ≠ some st0.loop.stackDepth :=
  ⟨rfl, rfl, by decide⟩

/-- C2: a selected module that is not skipped for processes and is not
wholly selected makes the loop iteration abort fatally with the state
completely untouched — in particular before any temp workspace is
created for it (no `mkTempDir` event, `counter` unchanged) — and the
abort ends the whole loop.  A module that additionally carries the
box attribute aborts even earlier, at the assertion. -/
theorem not_whole_module_aborts_before_workspace {σ : Type} (exec : String → σ → σ)
    (cfg : Flags) (mkTemp : String → Nat → String) (m : Module) (st : ScriptState σ)
    (h1 : m.numProcesses = 0) (h3 : m.whollySelected = false) :
    processModule exec cfg mkTemp m st
      = Except.error (st, if m.hasBoxId then Fatal.assertBoxId m.name
                          else Fatal.notWholeModule m.name)
    ∧ ∀ ms : List Module, mapLoop exec cfg mkTemp (m :: ms) st
      = Except.error (st, if m.hasBoxId then Fatal.assertBoxId m.name
                          else Fatal.notWholeModule m.name) := by
  have hp : ¬ 0 < m.numProcesses := by omega
  have hmain : processModule exec cfg mkTemp m st
      = Except.error (st, if m.hasBoxId then Fatal.assertBoxId m.name
                          else Fatal.notWholeModule m.name) := by
    by_cases hb : m.hasBoxId = true <;> simp [processModule, hp, h3, hb]
  exact ⟨hmain, fun ms => by simp [mapLoop, hmain]⟩

/-- Witness for C2 at a concrete partially selected module. -/
theorem not_whole_module_aborts_before_workspace_example :
    modNotWhole.numProcesses = 0 ∧ modNotWhole.whollySelected = false
    ∧ processModule exec0 cfg0 mkTemp0 modNotWhole st0
        = Except.error (st0, Fatal.notWholeModule "top") :=
  ⟨rfl, rfl,
    ((not_whole_module_aborts_before_workspace exec0 cfg0 mkTemp0 modNotWhole st0
        rfl rfl).1).trans rfl⟩

/-- C3: a module containing processes is skipped: the loop iteration
succeeds, emits exactly the one skip notice naming the module and no
other event (no export, no invocation, no reintegration), the loop
continues with the next unit, and over any completed run the number of
skip notices naming the module equals the number of process-bearing
listed modules with that name — once for a module listed once. -/
theorem skip_on_processes {σ : Type} (exec : String → σ → σ) (cfg : Flags)
    (mkTemp : String → Nat → String) (m : Module) (st : ScriptState σ)
    (h : 0 < m.numProcesses) :
    processModule exec cfg mkTemp m st = Except.ok (logEvent (Event.logSkip m.name) st)
    ∧ (∀ ms : List Module, mapLoop exec cfg mkTemp (m :: ms) st
        = mapLoop exec cfg mkTemp ms (logEvent (Event.logSkip m.name) st))
    ∧ (∀ (mods : List Module) (s s1 : ScriptState σ),
        mapLoop exec cfg mkTemp mods s = Except.ok s1 →
        skipCount m.name s1.loop.trace
          = skipCount m.name s.loop.trace
            + List.countP (fun x => decide (x.name = m.name) && decide (0 < x.numProcesses))
                mods) := by
  have hmain : processModule exec cfg mkTemp m st
      = Except.ok (logEvent (Event.logSkip m.name) st) := by
    simp [processModule, h]
  exact ⟨hmain, fun ms => by simp [mapLoop, hmain],
    fun mods s s1 hh => mapLoop_skipCount exec cfg mkTemp m.name mods s s1 hh⟩

/-- Witness for C3 at a concrete module with one process. -/
theorem skip_on_processes_example :
    0 < modSkip.numProcesses
    ∧ processModule exec0 cfg0 mkTemp0 modSkip st0
        = Except.ok (logEvent (Event.logSkip "behav") st0) :=
  ⟨by decide,
    ((skip_on_processes exec0 cfg0 mkTemp0 modSkip st0 (by decide)).1).trans rfl⟩

/-- C10: a process-free selected module carrying the `abc9_box_id`
attribute fails the assertion at loop-iteration entry: the run aborts
there with the state untouched — the module is never selected,
exported or mapped — and the abort ends the whole loop. -/
theorem box_module_assertion_aborts {σ : Type} (exec : String → σ → σ) (cfg : Flags)
    (mkTemp : String → Nat → String) (m : Module) (st : ScriptState σ)
    (h1 : m.numProcesses = 0) (h2 : m.hasBoxId = true) :
    processModule exec cfg mkTemp m st = Except.error (st, Fatal.assertBoxId m.name)
    ∧ ∀ ms : List Module, mapLoop exec cfg mkTemp (m :: ms) st
      = Except.error (st, Fatal.assertBoxId m.name) := by
  have hp : ¬ 0 < m.numProcesses := by omega
  have hmain : processModule exec cfg mkTemp m st
      = Except.error (st, Fatal.assertBoxId m.name) := by
    simp [processModule, hp, h2]
  exact ⟨hmain, fun ms => by simp [mapLoop, hmain]⟩

/-- Witness for C10 at a concrete box module. -/
theorem box_module_assertion_aborts_example :
    modBox.numProcesses = 0 ∧ modBox.hasBoxId = true
    ∧ processModule exec0 cfg0 mkTemp0 modBox st0
        = Except.error (st0, Fatal.assertBoxId "boxmod") :=
  ⟨rfl, rfl,
    ((box_module_assertion_aborts exec0 cfg0 mkTemp0 modBox st0 rfl rfl).1).trans rfl⟩

/-- C4: a processed unit whose export reports zero outputs produces no
external invocation, no import and no reintegration command — only the
workspace creation, the two export commands, the extraction log and
the nothing-to-map notice — the iteration still succeeds (not an
error), and the trailing cleanup events follow the retention policy
through the same `cleanupEvents` path used for invoked units. -/
theorem zero_outputs_skips_invocation {σ : Type} (exec : String → σ → σ) (cfg : Flags)
    (mkTemp : String → Nat → String) (m : Module) (st : ScriptState σ)
    (h1 : m.numProcesses = 0) (h2 : m.hasBoxId = false) (h3 : m.whollySelected = true)
    (h4 : m.numOutputs = 0) :
    (∀ td : String, td = mkTemp (tempdirTemplate cfg.cleanup) st.loop.counter →
      processModule exec cfg mkTemp m st = Except.ok
        { loop := { stackDepth := st.loop.stackDepth,
                    counter := st.loop.counter + 1,
                    trace := st.loop.trace
                      ++ ([Event.mkTempDir (tempdirTemplate cfg.cleanup) td,
                           Event.cmd (writeBoxCmd cfg.box_file td),
                           Event.cmd (writeXaigerCmd td),
                           Event.logExtracted m.numAnds m.numWires m.numInputs m.numOutputs,
                           Event.logNoMap]
                          ++ cleanupEvents cfg.cleanup td) },
          content := exec (writeXaigerCmd td) (exec (writeBoxCmd cfg.box_file td) st.content) })
    ∧ (∀ td : String, cleanupEvents true td = [Event.logRmTemp, Event.rmTempDir td])
    ∧ (∀ td : String, cleanupEvents false td = []) := by
  refine ⟨?_, fun td => rfl, fun td => rfl⟩
  intro td htd
  subst htd
  have hp : ¬ 0 < m.numProcesses := by omega
  simp [processModule, hp, h2, h3, unitEvents, unitContent, h4]

/-- Witness for C4 at a concrete zero-output module under the default
configuration (cleanup enabled). -/
theorem zero_outputs_skips_invocation_example :
    modZero.numOutputs = 0
    ∧ processModule exec0 cfg0 mkTemp0 modZero st0 = Except.ok
        { loop := { stackDepth := 0, counter := 1,
                    trace := [Event.mkTempDir "/tmp/yosys-abc-XXXXXX" "/tmp/yosys-abc-XXXXXX",
                              Event.cmd "abc9_ops -write_box (null) /tmp/yosys-abc-XXXXXX/input.box",
                              Event.cmd "write_xaiger -map /tmp/yosys-abc-XXXXXX/input.sym /tmp/yosys-abc-XXXXXX/input.xaig",
                              Event.logExtracted 0 0 0 0,
                              Event.logNoMap,
                              Event.logRmTemp,
                              Event.rmTempDir "/tmp/yosys-abc-XXXXXX"] },
          content := () } :=
  ⟨rfl,
    (((zero_outputs_skips_invocation exec0 cfg0 mkTemp0 modZero st0 rfl rfl rfl rfl).1
        "/tmp/yosys-abc-XXXXXX" rfl)).trans rfl⟩

/-- C5: the two pass-local booleans take their defaults from the
scratchpad keys `abc9.dff` and `abc9.nocleanup` read at the start of
execution, and a consumed CLI flag (`-dff` resp. `-nocleanup`)
overrides the scratchpad-derived value, which acts only as the
fallback. -/
theorem scratchpad_defaults_cli_override (scratch : String → Option Bool) (args : List String) :
    ((executeModel scratch args).flags.dff_mode
      = (if "-dff" ∈ consumedOpts args then true else (scratch "abc9.dff").getD false))
    ∧ ((executeModel scratch args).flags.cleanup
      = (if "-nocleanup" ∈ consumedOpts args then false
         else !((scratch "abc9.nocleanup").getD false))) := by
  have h := parseLoop_flags args (initFlags scratch)
  exact ⟨h.1, h.2⟩

/-- C6: a fully selected, process-free unit with a non-zero-output
export is invoked and its result imported under the derived name
`<original-name>$abc9` through the same `input.sym` port-symbol map
written during export; the workspace uses exactly the fixed file names
`input.box`, `input.xaig`, `input.sym` and `output.aig`. -/
theorem mapped_unit_files_and_naming {σ : Type} (exec : String → σ → σ) (cfg : Flags)
    (mkTemp : String → Nat → String) (m : Module) (st : ScriptState σ)
    (h1 : m.numProcesses = 0) (h2 : m.hasBoxId = false) (h3 : m.whollySelected = true)
    (h4 : m.numOutputs ≠ 0) :
    (∀ td : String, td = mkTemp (tempdirTemplate cfg.cleanup) st.loop.counter →
      processModule exec cfg mkTemp m st = Except.ok
        { loop := { stackDepth := st.loop.stackDepth,
                    counter := st.loop.counter + 1,
                    trace := st.loop.trace
                      ++ ([Event.mkTempDir (tempdirTemplate cfg.cleanup) td,
                           Event.cmd (writeBoxCmd cfg.box_file td),
                           Event.cmd (writeXaigerCmd td),
                           Event.logExtracted m.numAnds m.numWires m.numInputs m.numOutputs,
                           Event.cmd (invokeCmd cfg.exe_cmd td),
                           Event.cmd (readAigerCmd m.name td),
                           Event.cmd "abc9_ops -reintegrate"]
                          ++ cleanupEvents cfg.cleanup td) },
          content := unitContent exec cfg m td st.content })
    ∧ (∀ (nm td : String), readAigerCmd nm td
        = "read_aiger -xaiger -wideports -module_name " ++ (nm ++ "$abc9") ++ " -map "
          ++ symPath td ++ " " ++ outPath td)
    ∧ (∀ td : String, writeXaigerCmd td = "write_xaiger -map " ++ symPath td ++ " " ++ xaigPath td)
    ∧ (∀ td : String, symPath td = td ++ "/input.sym" ∧ boxPath td = td ++ "/input.box"
        ∧ xaigPath td = td ++ "/input.xaig" ∧ outPath td = td ++ "/output.aig") := by
  refine ⟨?_, ?_, fun td => rfl, fun td => ⟨rfl, rfl, rfl, rfl⟩⟩
  · intro td htd
    subst htd
    have hp : ¬ 0 < m.numProcesses := by omega
    simp [processModule, hp, h2, h3, unitEvents, h4]
  · intro nm td
    unfold readAigerCmd
    simp [String.append_assoc]

/-- Witness for C6 at a concrete one-output module under the default
configuration. -/
theorem mapped_unit_files_and_naming_example :
    modGo.numOutputs ≠ 0
    ∧ processModule exec0 cfg0 mkTemp0 modGo st0 = Except.ok
        { loop := { stackDepth := 0, counter := 1,
                    trace := [Event.mkTempDir "/tmp/yosys-abc-XXXXXX" "/tmp/yosys-abc-XXXXXX",
                              Event.cmd "abc9_ops -write_box (null) /tmp/yosys-abc-XXXXXX/input.box",
                              Event.cmd "write_xaiger -map /tmp/yosys-abc-XXXXXX/input.sym /tmp/yosys-abc-XXXXXX/input.xaig",
                              Event.logExtracted 5 6 2 1,
                              Event.cmd "abc9_exe -cwd /tmp/yosys-abc-XXXXXX -box /tmp/yosys-abc-XXXXXX/input.box",
                              Event.cmd "read_aiger -xaiger -wideports -module_name core$abc9 -map /tmp/yosys-abc-XXXXXX/input.sym /tmp/yosys-abc-XXXXXX/output.aig",
                              Event.cmd "abc9_ops -reintegrate",
                              Event.logRmTemp,
                              Event.rmTempDir "/tmp/yosys-abc-XXXXXX"] },
          content := () } :=
  ⟨by decide,
    (((mapped_unit_files_and_naming exec0 cfg0 mkTemp0 modGo st0 rfl rfl rfl (by decide)).1
        "/tmp/yosys-abc-XXXXXX" rfl)).trans rfl⟩

/-- C7: when workspace retention is requested (cleanup disabled), the
temp directory name template is produced from the fixed base template
by first overwriting positions 0 and 4 with an underscore — yielding
`_tmp_yosys-abc-XXXXXX`, visibly different from the non-retained
template — and only then is the randomized uniqueness substitution
(`make_temp_dir`, the oracle) applied to it. -/
theorem retained_tempdir_template {σ : Type} (exec : String → σ → σ) (cfg : Flags)
    (mkTemp : String → Nat → String) (m : Module) (st : ScriptState σ)
    (h1 : m.numProcesses = 0) (h2 : m.hasBoxId = false) (h3 : m.whollySelected = true)
    (hc : cfg.cleanup = false) :
    tempdirTemplate false = setCharAt (setCharAt baseTemplate 0 '_') 4 '_'
    ∧ tempdirTemplate false = "_tmp_yosys-abc-XXXXXX"
    ∧ baseTemplate = "/tmp/yosys-abc-XXXXXX"
    ∧ tempdirTemplate false ≠ tempdirTemplate true
    ∧ processModule exec cfg mkTemp m st = Except.ok
        { loop := { stackDepth := st.loop.stackDepth,
                    counter := st.loop.counter + 1,
                    trace := st.loop.trace
                      ++ unitEvents cfg m (mkTemp "_tmp_yosys-abc-XXXXXX" st.loop.counter)
                           "_tmp_yosys-abc-XXXXXX" },
          content := unitContent exec cfg m (mkTemp "_tmp_yosys-abc-XXXXXX" st.loop.counter)
                       st.content } := by
  have htl : tempdirTemplate false = "_tmp_yosys-abc-XXXXXX" := by decide
  refine ⟨rfl, htl, rfl, by decide, ?_⟩
  have hp : ¬ 0 < m.numProcesses := by omega
  simp [processModule, hp, h2, h3, hc, htl]

/-- Witness for C7 at a concrete module with cleanup disabled. -/
theorem retained_tempdir_template_example :
    cfgKeep.cleanup = false
    ∧ tempdirTemplate false = "_tmp_yosys-abc-XXXXXX"
    ∧ processModule exec0 cfgKeep mkTemp0 modZero st0 = Except.ok
        { loop := { stackDepth := 0, counter := 1,
                    trace := unitEvents cfgKeep modZero "_tmp_yosys-abc-XXXXXX"
                      "_tmp_yosys-abc-XXXXXX" },
          content := () } :=
  ⟨rfl,
    (retained_tempdir_template exec0 cfgKeep mkTemp0 modZero st0 rfl rfl rfl rfl).2.1,
    ((retained_tempdir_template exec0 cfgKeep mkTemp0 modZero st0 rfl rfl rfl rfl).2.2.2.2).trans
      rfl⟩

/-- C8: the config translator forwards each recognised value-taking
flag verbatim with its value into the external-tool invocation string,
forwards each recognised bare switch verbatim, consumes the pass-local
flags (`-dff`, `-nocleanup`, `-box <file>`) without forwarding them
(`exe_cmd` untouched), stops option parsing at the first unrecognised
token, and hands that token with the remainder to the selection
mechanism instead of erroring. -/
theorem config_translator_contract :
    (∀ (f : Flags) (arg v : String) (rest : List String), isValueFlag arg = true →
      parseLoop (arg :: v :: rest) f
        = parseLoop rest { f with exe_cmd := f.exe_cmd ++ " " ++ arg ++ " " ++ v })
    ∧ (∀ (f : Flags) (arg : String) (rest : List String),
        isValueFlag arg = false → isSwitchFlag arg = true →
        parseLoop (arg :: rest) f = parseLoop rest { f with exe_cmd := f.exe_cmd ++ " " ++ arg })
    ∧ (∀ (f : Flags) (rest : List String),
        parseLoop ("-dff" :: rest) f = parseLoop rest { f with dff_mode := true })
    ∧ (∀ (f : Flags) (rest : List String),
        parseLoop ("-nocleanup" :: rest) f = parseLoop rest { f with cleanup := false })
    ∧ (∀ (f : Flags) (v : String) (rest : List String),
        parseLoop ("-box" :: v :: rest) f = parseLoop rest { f with box_file := v })
    ∧ (∀ (f : Flags) (arg : String) (rest : List String),
        isValueFlag arg = false → isSwitchFlag arg = false →
        arg ≠ "-dff" → arg ≠ "-nocleanup" → arg ≠ "-box" →
        parseLoop (arg :: rest) f = (f, arg :: rest))
    ∧ (∀ (scratch : String → Option Bool) (args : List String),
        (executeModel scratch args).selectionArgs = (parseLoop args (initFlags scratch)).2) :=
  ⟨fun f arg v rest h => parseLoop_value arg v rest f h,
   fun f arg rest hv hs => parseLoop_switch arg rest f hv hs,
   fun f rest => parseLoop_dffArg rest f,
   fun f rest => parseLoop_nocleanupArg rest f,
   fun f v rest => parseLoop_boxArg v rest f,
   fun f arg rest hv hs h3 h4 h5 => parseLoop_stop arg rest f hv hs h3 h4 h5,
   fun _ _ => rfl⟩

/-- Witness for C8: each contract clause at a concrete token list. -/
theorem config_translator_contract_example :
    (isValueFlag "-exe" = true
      ∧ parseLoop ["-exe", "myabc"] clear_flags
          = parseLoop [] { clear_flags with
              exe_cmd := clear_flags.exe_cmd ++ " " ++ "-exe" ++ " " ++ "myabc" })
    ∧ (isSwitchFlag "-fast" = true
      ∧ parseLoop ["-fast"] clear_flags
          = parseLoop [] { clear_flags with exe_cmd := clear_flags.exe_cmd ++ " " ++ "-fast" })
    ∧ parseLoop ["-dff"] clear_flags = parseLoop [] { clear_flags with dff_mode := true }
    ∧ parseLoop ["-nocleanup"] clear_flags = parseLoop [] { clear_flags with cleanup := false }
    ∧ parseLoop ["-box", "boxes.txt"] clear_flags
        = parseLoop [] { clear_flags with box_file := "boxes.txt" }
    ∧ parseLoop ["top"] clear_flags = (clear_flags, ["top"]) :=
  ⟨⟨by decide, config_translator_contract.1 clear_flags "-exe" "myabc" [] (by decide)⟩,
   ⟨by decide, config_translator_contract.2.1 clear_flags "-fast" [] (by decide) (by decide)⟩,
   config_translator_contract.2.2.1 clear_flags [],
   config_translator_contract.2.2.2.1 clear_flags [],
   config_translator_contract.2.2.2.2.1 clear_flags "boxes.txt" [],
   config_translator_contract.2.2.2.2.2.1 clear_flags "top" [] (by decide) (by decide)
     (by decide) (by decide) (by decide)⟩

/-- C9: running the three stages as three separate label-selected
invocations `pre`, `map`, `post` in that order produces exactly the
final state of one unbroken invocation (the stage functions are
deterministic, so a deterministic external tool is built in), and
label selection only ever filters the fixed stage order — it never
re-orders stages. -/
theorem staged_runs_compose {σ : Type} (exec : String → σ → σ) (cfg : Flags)
    (mkTemp : String → Nat → String) (mods : List Module) (st : ScriptState σ) :
    Except.bind (Except.bind
        (abc9Script exec cfg mkTemp mods (some Label.pre) (some Label.pre) st)
        (abc9Script exec cfg mkTemp mods (some Label.map) (some Label.map)))
      (abc9Script exec cfg mkTemp mods (some Label.post) (some Label.post))
      = abc9Script exec cfg mkTemp mods none none st
    ∧ ∀ (a b : Option Label),
        List.Sublist (List.filter (checkLabel a b) [Label.pre, Label.map, Label.post])
          [Label.pre, Label.map, Label.post] := by
  constructor
  · have hpre : abc9Script exec cfg mkTemp mods (some Label.pre) (some Label.pre) st
        = Except.ok (preStage exec cfg.dff_mode st) := rfl
    have hpost : ∀ s : ScriptState σ,
        abc9Script exec cfg mkTemp mods (some Label.post) (some Label.post) s
          = Except.ok (postStage exec s) := fun s => rfl
    have hmap : ∀ s : ScriptState σ,
        abc9Script exec cfg mkTemp mods (some Label.map) (some Label.map) s
          = mapStage exec cfg mkTemp mods s := by
      intro s
      show (match mapStage exec cfg mkTemp mods s with
            | Except.error e => Except.error e
            | Except.ok st2 => Except.ok st2) = mapStage exec cfg mkTemp mods s
      cases mapStage exec cfg mkTemp mods s <;> rfl
    have hall : abc9Script exec cfg mkTemp mods none none st
        = (match mapStage exec cfg mkTemp mods (preStage exec cfg.dff_mode st) with
           | Except.error e => Except.error e
           | Except.ok st2 => Except.ok (postStage exec st2)) := rfl
    rw [hpre, hall]
    show Except.bind (abc9Script exec cfg mkTemp mods (some Label.map) (some Label.map)
        (preStage exec cfg.dff_mode st))
      (abc9Script exec cfg mkTemp mods (some Label.post) (some Label.post)) = _
    rw [hmap]
    cases mapStage exec cfg mkTemp mods (preStage exec cfg.dff_mode st) with
    | error e => rfl
    | ok s2 => exact hpost s2
  · intro a b
    exact List.filter_sublist _

end Abc9
